import Mathlib

/-
Verification development for the pwforecast module: a shallow embedding of
the `PwForecast` class (forecast aggregation, target-reserve calculation,
the backup-reserve convergence state machine, and the outer retry
orchestration), together with theorems settling the specification claims.

Numeric modelling: Python numbers (ints and floats used for energies,
percentages and power readings) are embedded as exact rationals; integer
quantities (percent targets, counts, retry limits) as integers or naturals.
Python `int(x)` truncates toward zero, embedded as `pyInt`.
-/

/-- Python `int()` applied to a number: truncation toward zero.
For a rational `q` in lowest terms this is `q.num` divided by `q.den`
with truncating integer division. -/
def pyInt (q : ℚ) : ℤ := Int.tdiv q.num (q.den : ℤ)

/-- The tunable attributes set in `PwForecast.__init__`, with their default
values from the source. -/
structure PwConfig where
  min_reserve_peak_rate : ℤ := 20
  min_reserve_off_peak_rate : ℤ := 30
  max_reserve : ℤ := 100
  required_energy_peak_rate : ℚ := 30000
  global_retry_limit : ℕ := 5
  set_backup_reserve_retry_limit : ℕ := 5
  reserve_switch_margin : ℚ := 100
  charge_margin : ℚ := 1
  full_pack_energy : ℚ := 14000
  visible_pack_energy : ℚ := 95 / 100
  discharge_efficiency : ℚ := 95 / 100
deriving DecidableEq

/-- The default configuration from `PwForecast.__init__`. -/
def defaultPw : PwConfig := {}

/-- One `SITE_DATA` telemetry response: the three fields read by
`set_backup_reserve_percent`. -/
structure SiteData where
  percentage_charged : ℚ
  battery_power : ℚ
  solar_power : ℚ
deriving DecidableEq

/-- The battery fields read after `get_battery_data()`. -/
structure BatteryData where
  battery_count : ℤ
  total_pack_energy : ℚ
deriving DecidableEq

/-- The classification of one round's freshly read telemetry, in the order of
the `if`/`elif` chain of `set_backup_reserve_percent`. -/
inductive Outcome where
  | withinMargin
  | chargingAsExpected
  | dischargingAsExpected
  | indeterminate
deriving DecidableEq

/-- The `if`/`elif` chain of `set_backup_reserve_percent` classifying one
round's telemetry against the target. Checked in source order: margin match
first, then charging, then discharging, else indeterminate. -/
def classify (c : PwConfig) (percent_target : ℤ) (d : SiteData) : Outcome :=
  if (percent_target : ℚ) - c.charge_margin ≤ d.percentage_charged ∧
      d.percentage_charged ≤ (percent_target : ℚ) + c.charge_margin then
    .withinMargin
  else if (percent_target : ℚ) > d.percentage_charged ∧
      d.battery_power < -c.reserve_switch_margin then
    .chargingAsExpected
  else if (percent_target : ℚ) < d.percentage_charged ∧
      d.battery_power + d.solar_power > c.reserve_switch_margin then
    .dischargingAsExpected
  else
    .indeterminate

/-- The convergence retry loop of `set_backup_reserve_percent`
(`for index in range(1, set_backup_reserve_retry_limit + 1)`).
`remaining` is the number of rounds left in the range, `index` the current
round number; `readings index` is the `SITE_DATA` telemetry observed in round
`index` after the settle sleep. The result is the list of issued set-reserve
commands as `(round, value)` pairs (one command is issued at the top of every
round entered) paired with `some (exit_round, data)` when the loop breaks
(success) or `none` when the range is exhausted without a break. Round-1
margin / discharging matches re-issue and continue (`if index < 2`), exactly
as in the source. -/
def convLoop (c : PwConfig) (percent_target : ℤ) (readings : ℕ → SiteData) :
    ℕ → ℕ → List (ℕ × ℤ) × Option (ℕ × SiteData)
  | 0, _ => ([], none)
  | remaining + 1, index =>
    let d := readings index
    match classify c percent_target d with
    | .withinMargin =>
      if index < 2 then
        let rest := convLoop c percent_target readings remaining (index + 1)
        ((index, percent_target) :: rest.1, rest.2)
      else
        ([(index, percent_target)], some (index, d))
    | .chargingAsExpected => ([(index, percent_target)], some (index, d))
    | .dischargingAsExpected =>
      if index < 2 then
        let rest := convLoop c percent_target readings remaining (index + 1)
        ((index, percent_target) :: rest.1, rest.2)
      else
        ([(index, percent_target)], some (index, d))
    | .indeterminate =>
      let rest := convLoop c percent_target readings remaining (index + 1)
      ((index, percent_target) :: rest.1, rest.2)

/-- The two assertion messages raised in the source. -/
inductive AssertMsg where
  | noBatteriesDetected
  | moreThanOneBatteryReturned
deriving DecidableEq

/-- The exceptions `set_backup_reserve_percent` and `_teslapy_battery` can
raise. `convergenceExhausted` carries the `battery_data` dict that the
failure branch pretty-prints (modelled as an association list); in the source
that dict is initialized to `{}` before the loop and never written. -/
inductive PwError where
  | assertionError (msg : AssertMsg)
  | convergenceExhausted (printed_battery_data : List (String × ℚ))
deriving DecidableEq

/-- The status dictionary returned by `set_backup_reserve_percent`, with the
optional `solar_forecast` key added by `set_off_peak_mode`. -/
structure Summary where
  soc : ℚ
  reserve : ℤ
  capacity : ℚ
  soh : ℚ
  solar_forecast : Option ℤ := none
deriving DecidableEq

/-- `PwForecast.set_backup_reserve_percent`: truncates the target with
`int()`, refreshes battery data (taken here as the `battery` argument),
asserts `battery_count > 0`, computes the pack state of health, runs the
convergence loop, and either returns the status summary (on break) or raises
after pretty-printing the (empty) `battery_data` dict. The first component
of the result is the trace of issued set-reserve commands. -/
def set_backup_reserve_percent (c : PwConfig) (battery : BatteryData)
    (readings : ℕ → SiteData) (percent_target : ℚ) :
    List (ℕ × ℤ) × Except PwError Summary :=
  let target : ℤ := pyInt percent_target
  if 0 < battery.battery_count then
    let total_pack_energy := battery.total_pack_energy
    let pack_soh : ℚ :=
      100 / (c.full_pack_energy * (battery.battery_count : ℚ)) * total_pack_energy
    let battery_data : List (String × ℚ) := []
    let run := convLoop c target readings c.set_backup_reserve_retry_limit 1
    match run.2 with
    | some (_, d) =>
      (run.1, Except.ok { soc := d.percentage_charged, reserve := target,
                          capacity := total_pack_energy, soh := pack_soh })
    | none => (run.1, Except.error (.convergenceExhausted battery_data))
  else
    ([], Except.error (.assertionError .noBatteriesDetected))

/-- `PwForecast._teslapy_battery`: device discovery. Asserts that the
discovered battery list has length exactly one and yields its sole element. -/
def teslapy_battery (battery_list : List BatteryData) : Except PwError BatteryData :=
  if h : battery_list.length = 1 then
    Except.ok (battery_list.get ⟨0, by omega⟩)
  else
    Except.error (.assertionError .moreThanOneBatteryReturned)

/-- One full attempt at setting the backup reserve: device discovery followed
by `set_backup_reserve_percent`. A failed discovery assertion issues no
command. -/
def attempt_set_reserve (c : PwConfig) (battery_list : List BatteryData)
    (readings : ℕ → SiteData) (percent_target : ℚ) :
    List (ℕ × ℤ) × Except PwError Summary :=
  match teslapy_battery battery_list with
  | Except.error e => ([], Except.error e)
  | Except.ok b => set_backup_reserve_percent c b readings percent_target

/-- Result of the outer orchestration loop: a printed status summary, an
uncaught exception re-raised on the final attempt, or no attempt at all
(`global_retry_limit < 1`, empty `range`). -/
inductive OuterResult where
  | ok (s : Summary)
  | raised (e : PwError)
  | noAttempt
deriving DecidableEq

/-- The `try`/`except` retry loop shared by `set_peak_mode` and
`set_off_peak_mode` (`for i in range(1, global_retry_limit + 1)`).
`attempts i` is the outcome of the try-block body on attempt `i` (the body
re-runs the whole transition, so its outcome may differ per attempt). Any
exception is caught and the loop re-runs after the sleep, except on attempt
`i = limit` where it propagates. -/
def outerLoop (attempts : ℕ → Except PwError Summary) (limit : ℕ) :
    ℕ → ℕ → OuterResult
  | _, 0 => .noAttempt
  | i, remaining + 1 =>
    match attempts i with
    | Except.ok s => .ok s
    | Except.error e =>
      if i = limit then .raised e else outerLoop attempts limit (i + 1) remaining

/-- `PwForecast.set_peak_mode`: the outer retry loop around the peak-mode
transition body. -/
def set_peak_mode (c : PwConfig) (attempts : ℕ → Except PwError Summary) : OuterResult :=
  outerLoop attempts c.global_retry_limit 1 c.global_retry_limit

/-- `PwForecast.set_off_peak_mode`: the outer retry loop around the off-peak
transition body (forecast fetch, target calculation, convergence). -/
def set_off_peak_mode (c : PwConfig) (attempts : ℕ → Except PwError Summary) : OuterResult :=
  outerLoop attempts c.global_retry_limit 1 c.global_retry_limit

/-- One Solcast forecast sample: the parsed `period_end` timestamp (an
abstract instant on a linear timeline) and the `pv_estimate` rate in kW. -/
structure ForecastBlock where
  period_end : ℤ
  pv_estimate : ℚ
deriving DecidableEq

/-- The filtering step of `get_solar_forecast_tomorrow`: keep the blocks with
`tomorrow_start < period_end < tomorrow_end` (strict on both bounds). -/
def forecast_blocks (tomorrow_start tomorrow_end : ℤ) (result : List ForecastBlock) :
    List ForecastBlock :=
  result.filter fun b =>
    decide (tomorrow_start < b.period_end) && decide (b.period_end < tomorrow_end)

/-- Per-site energy accumulation of `get_solar_forecast_tomorrow`: each kept
30-minute block contributes `pv_estimate / 2` kWh, starting from 0. -/
def site_energy_kwh (tomorrow_start tomorrow_end : ℤ) (result : List ForecastBlock) : ℚ :=
  (forecast_blocks tomorrow_start tomorrow_end result).foldl
    (fun acc b => acc + b.pv_estimate / 2) 0

/-- `PwForecast.get_solar_forecast_tomorrow`: sums the per-site kWh totals
across all sites and returns `int(total_energy_kwh * 1000)`. -/
def get_solar_forecast_tomorrow (tomorrow_start tomorrow_end : ℤ)
    (sites : List (List ForecastBlock)) : ℤ :=
  pyInt ((sites.foldl
    (fun acc blocks => acc + site_energy_kwh tomorrow_start tomorrow_end blocks) 0) * 1000)

/-- Spec-side aggregate, following the spec words: keep exactly the samples
strictly inside the window, each contributing `rate / 2` kWh; sum per site,
sum across sites, and truncate the kWh-to-Wh conversion once at the end. -/
def aggregate_spec (tomorrow_start tomorrow_end : ℤ)
    (sites : List (List ForecastBlock)) : ℤ :=
  pyInt (((sites.map fun blocks =>
    ((blocks.filter fun b =>
        decide (tomorrow_start < b.period_end ∧ b.period_end < tomorrow_end)).map
      fun b => b.pv_estimate / 2).sum).sum) * 1000)

/-- The `factors` list of `calculate_backup_reserve`. -/
def factors (c : PwConfig) : List ℚ := [c.visible_pack_energy, c.discharge_efficiency]

/-- `availability_factor = sum(factors) - (len(factors) - 1)`. -/
def availability_factor (c : PwConfig) : ℚ :=
  (factors c).sum - (((factors c).length : ℚ) - 1)

/-- `available_pack_energy = total_pack_energy * availability_factor`. -/
def available_pack_energy (c : PwConfig) (total_pack_energy : ℚ) : ℚ :=
  total_pack_energy * availability_factor c

/-- `pack_energy_increment = available_pack_energy / 100`. -/
def pack_energy_increment (c : PwConfig) (total_pack_energy : ℚ) : ℚ :=
  available_pack_energy c total_pack_energy / 100

/-- The `while available_energy < required_energy_peak_rate` loop of
`calculate_backup_reserve`: add the per-percent increment, bump the percent,
and break once the percent has reached `max_reserve`. Terminates because the
percent strictly increases toward `max_reserve` (the break) whenever it
recurses. -/
def reserveLoop (required_energy inc : ℚ) (max_reserve : ℤ)
    (available_energy : ℚ) (charge_percent : ℤ) : ℤ :=
  if available_energy < required_energy then
    if _h : max_reserve ≤ charge_percent + 1 then charge_percent + 1
    else reserveLoop required_energy inc max_reserve (available_energy + inc)
      (charge_percent + 1)
  else charge_percent
termination_by (max_reserve - charge_percent).toNat
decreasing_by omega

/-- Fuel-indexed version of the `calculate_backup_reserve` loop, counting the
iterations actually executed: with fuel `n` the loop may execute at most `n`
iterations, returning `none` if the loop body would run once more when the
fuel is exhausted. -/
def reserveLoopF (required_energy inc : ℚ) (max_reserve : ℤ) :
    ℕ → ℚ → ℤ → Option ℤ
  | 0, available_energy, charge_percent =>
    if available_energy < required_energy then none else some charge_percent
  | fuel + 1, available_energy, charge_percent =>
    if available_energy < required_energy then
      if max_reserve ≤ charge_percent + 1 then some (charge_percent + 1)
      else reserveLoopF required_energy inc max_reserve fuel
        (available_energy + inc) (charge_percent + 1)
    else some charge_percent

/-- `PwForecast.calculate_backup_reserve`: run the fill loop from
`min_reserve_off_peak_rate` with `available_energy = forecast_production`.
The final `int()` is the identity on the integer percent. -/
def calculate_backup_reserve (c : PwConfig)
    (total_pack_energy forecast_production : ℚ) : ℤ :=
  reserveLoop c.required_energy_peak_rate (pack_energy_increment c total_pack_energy)
    c.max_reserve forecast_production c.min_reserve_off_peak_rate

/-- A floor-equals-ceiling configuration: `min_reserve_off_peak_rate` raised
to `max_reserve = 100`, all other attributes at their defaults. -/
def cfgFloorEqCeil : PwConfig := { defaultPw with min_reserve_off_peak_rate := 100 }

theorem reserveLoop_ge (r i : ℚ) (m : ℤ) :
    ∀ a p, p ≤ reserveLoop r i m a p := by
  intro a p
  induction a, p using reserveLoop.induct r i m with
  | case1 a p h1 h2 => rw [reserveLoop]; simp [h1, h2]
  | case2 a p h1 h2 ih => rw [reserveLoop]; simp [h1, h2]; omega
  | case3 a p h1 => rw [reserveLoop]; simp [h1]

theorem reserveLoop_le (r i : ℚ) (m : ℤ) :
    ∀ a p, p < m → reserveLoop r i m a p ≤ m := by
  intro a p
  induction a, p using reserveLoop.induct r i m with
  | case1 a p h1 h2 => intro hp; rw [reserveLoop]; simp [h1, h2]; omega
  | case2 a p h1 h2 ih => intro hp; rw [reserveLoop]; simp [h1, h2]; exact ih (by omega)
  | case3 a p h1 => intro hp; rw [reserveLoop]; simp [h1]; omega

theorem reserveLoopF_eq_reserveLoop (r i : ℚ) (m : ℤ) :
    ∀ fuel a p, max (m - p).toNat 1 ≤ fuel →
      reserveLoopF r i m fuel a p = some (reserveLoop r i m a p) := by
  intro fuel
  induction fuel with
  | zero => intro a p h; omega
  | succ f ih =>
    intro a p h
    rw [reserveLoop]
    by_cases h1 : a < r
    · by_cases h2 : m ≤ p + 1
      · simp [reserveLoopF, h1, h2]
      · simp only [reserveLoopF, if_pos h1, if_neg h2, dif_pos h1, dif_neg h2]
        exact ih (a + i) (p + 1) (by omega)
    · simp [reserveLoopF, h1]

/-- C6 (amended): for every forecast production, pack capacity, floor and
ceiling, `calculate_backup_reserve` never returns below the floor
(`min_reserve_off_peak_rate`), and provided the floor is strictly below the
ceiling (`max_reserve`) the result never exceeds the ceiling. -/
theorem calculate_backup_reserve_bounds (c : PwConfig) (tpe fc : ℚ) :
    c.min_reserve_off_peak_rate ≤ calculate_backup_reserve c tpe fc ∧
    (c.min_reserve_off_peak_rate < c.max_reserve →
      calculate_backup_reserve c tpe fc ≤ c.max_reserve) :=
  ⟨reserveLoop_ge _ _ _ _ _, fun h => reserveLoop_le _ _ _ _ _ h⟩

theorem calculate_backup_reserve_bounds_witness :
    defaultPw.min_reserve_off_peak_rate < defaultPw.max_reserve ∧
    defaultPw.min_reserve_off_peak_rate ≤ calculate_backup_reserve defaultPw 14000 0 ∧
    calculate_backup_reserve defaultPw 14000 0 ≤ defaultPw.max_reserve :=
  ⟨by norm_num [defaultPw],
   (calculate_backup_reserve_bounds defaultPw 14000 0).1,
   (calculate_backup_reserve_bounds defaultPw 14000 0).2 (by norm_num [defaultPw])⟩

/-- C6 counterexample: with the floor raised to the ceiling
(`min_reserve_off_peak_rate = max_reserve = 100`, all else default, a 14000 Wh
pack and zero forecast) the loop increments once before testing the cap and
returns 101, strictly above the ceiling, so the claim as stated fails. -/
theorem calculate_backup_reserve_exceeds_ceiling :
    calculate_backup_reserve cfgFloorEqCeil 14000 0 = 101 ∧
    cfgFloorEqCeil.max_reserve < calculate_backup_reserve cfgFloorEqCeil 14000 0 := by
  have h : calculate_backup_reserve cfgFloorEqCeil 14000 0 = 101 := by
    rw [calculate_backup_reserve, reserveLoop]
    norm_num [cfgFloorEqCeil, defaultPw]
  exact ⟨h, by rw [h]; norm_num [cfgFloorEqCeil, defaultPw]⟩

/-- C7: `calculate_backup_reserve` composes the two loss factors additively on
their complements: `availability_factor = sum(factors) - (len(factors) - 1)`
equals `visible_pack_energy + discharge_efficiency - 1`, the per-percent
increment equals `total_pack_energy * availability_factor / 100`, and with the
default factors 0.95 and 0.95 the factor is 0.90, giving 12600 Wh of usable
energy from a 14000 Wh pack. -/
theorem availability_factor_additive_composition (c : PwConfig) (tpe : ℚ) :
    availability_factor c = c.visible_pack_energy + c.discharge_efficiency - 1 ∧
    pack_energy_increment c tpe =
      tpe * (c.visible_pack_energy + c.discharge_efficiency - 1) / 100 ∧
    availability_factor defaultPw = 9 / 10 ∧
    available_pack_energy defaultPw 14000 = 12600 := by
  refine ⟨?_, ?_, ?_, ?_⟩ <;>
    simp [availability_factor, factors, pack_energy_increment, available_pack_energy,
      defaultPw] <;>
    norm_num

/-- C8 (amended): the linear-search loop of `calculate_backup_reserve` always
terminates, within `max(max_reserve - min_reserve_off_peak_rate, 1)`
iterations: that much fuel always suffices and reproduces the loop's value,
for every input, including a zero per-percent increment and an unsatisfiable
deficit. -/
theorem calculate_loop_terminates_within_amended_bound (c : PwConfig) (tpe fc : ℚ) :
    reserveLoopF c.required_energy_peak_rate (pack_energy_increment c tpe)
      c.max_reserve (max (c.max_reserve - c.min_reserve_off_peak_rate).toNat 1)
      fc c.min_reserve_off_peak_rate
      = some (calculate_backup_reserve c tpe fc) :=
  reserveLoopF_eq_reserveLoop _ _ _ _ _ _ le_rfl

/-- C8 counterexample: with the floor raised to the ceiling
(`min_reserve_off_peak_rate = max_reserve = 100`, zero forecast, default
increment 126) the claimed bound of `ceiling - floor = 0` iterations does not
cover the loop: fuel 0 is exhausted (`none`) while the loop actually executes
one iteration and returns 101. -/
theorem calculate_loop_exceeds_naive_bound :
    reserveLoopF cfgFloorEqCeil.required_energy_peak_rate
      (pack_energy_increment cfgFloorEqCeil 14000) cfgFloorEqCeil.max_reserve
      (cfgFloorEqCeil.max_reserve - cfgFloorEqCeil.min_reserve_off_peak_rate).toNat
      0 cfgFloorEqCeil.min_reserve_off_peak_rate = none ∧
    calculate_backup_reserve cfgFloorEqCeil 14000 0 = 101 := by
  constructor
  · show reserveLoopF _ _ _ ((100 - 100 : ℤ)).toNat _ _ = none
    norm_num [reserveLoopF, cfgFloorEqCeil, defaultPw]
  · rw [calculate_backup_reserve, reserveLoop]
    norm_num [cfgFloorEqCeil, defaultPw]

theorem convLoop_cmds_mem_self (c : PwConfig) (t : ℤ) (rd : ℕ → SiteData) (r idx : ℕ) :
    (idx, t) ∈ (convLoop c t rd (r + 1) idx).1 := by
  cases hc : classify c t (rd idx) <;> by_cases hi : idx < 2 <;>
    simp [convLoop, hc, hi]

theorem convLoop_success_ge (c : PwConfig) (t : ℤ) (rd : ℕ → SiteData) :
    ∀ r idx k d, (convLoop c t rd r idx).2 = some (k, d) → idx ≤ k := by
  intro r
  induction r with
  | zero => intro idx k d h; simp [convLoop] at h
  | succ n ih =>
    intro idx k d h
    cases hc : classify c t (rd idx) <;> by_cases hi : idx < 2 <;>
      simp [convLoop, hc, hi] at h <;>
      first
        | exact Nat.le_of_succ_le (ih (idx + 1) k d h)
        | omega

theorem convLoop_cmds_val (c : PwConfig) (t : ℤ) (rd : ℕ → SiteData) :
    ∀ r idx x, x ∈ (convLoop c t rd r idx).1 → x.2 = t := by
  intro r
  induction r with
  | zero => intro idx x h; simp [convLoop] at h
  | succ n ih =>
    intro idx x h
    cases hc : classify c t (rd idx) <;> by_cases hi : idx < 2 <;>
      simp [convLoop, hc, hi] at h
    all_goals
      first
        | (rcases h with h | h
           · rw [h]
           · exact ih (idx + 1) x h)
        | (rw [h])

/-- C1: a round-1 WithinMargin or DischargingAsExpected observation is
provisional: the convergence loop never exits successfully in round 1 (any
successful exit round is at least 2) and, whenever the retry budget admits a
round 2, the set-reserve command is issued again in round 2; whereas a
ChargingAsExpected observation terminates the loop successfully in the very
round it occurs, round 1 included. -/
theorem round1_margin_or_discharge_is_provisional (c : PwConfig) (t : ℤ)
    (rd : ℕ → SiteData) :
    (∀ limit k d,
      (classify c t (rd 1) = Outcome.withinMargin ∨
        classify c t (rd 1) = Outcome.dischargingAsExpected) →
      (convLoop c t rd limit 1).2 = some (k, d) → 2 ≤ k) ∧
    (∀ limit, 2 ≤ limit →
      (classify c t (rd 1) = Outcome.withinMargin ∨
        classify c t (rd 1) = Outcome.dischargingAsExpected) →
      (2, t) ∈ (convLoop c t rd limit 1).1) ∧
    (∀ r idx, classify c t (rd idx) = Outcome.chargingAsExpected →
      convLoop c t rd (r + 1) idx = ([(idx, t)], some (idx, rd idx))) := by
  refine ⟨?_, ?_, ?_⟩
  · intro limit k d hcl h
    cases limit with
    | zero => simp [convLoop] at h
    | succ n =>
      rcases hcl with hc | hc <;>
        simp only [convLoop, hc, if_pos (show (1 : ℕ) < 2 by norm_num)] at h <;>
        exact convLoop_success_ge c t rd n 2 k d h
  · intro limit hlim hcl
    obtain ⟨n, rfl⟩ : ∃ n, limit = n + 2 := ⟨limit - 2, by omega⟩
    rcases hcl with hc | hc <;>
      simp only [convLoop, hc, if_pos (show (1 : ℕ) < 2 by norm_num), List.mem_cons] <;>
      exact Or.inr (convLoop_cmds_mem_self c t rd n 2)
  · intro r idx hc
    simp [convLoop, hc]

theorem round1_margin_or_discharge_is_provisional_witness :
    (classify defaultPw 30 ((fun _ => (⟨30, 0, 0⟩ : SiteData)) 1) = Outcome.withinMargin ∨
      classify defaultPw 30 ((fun _ => (⟨30, 0, 0⟩ : SiteData)) 1)
        = Outcome.dischargingAsExpected) ∧
    (convLoop defaultPw 30 (fun _ => (⟨30, 0, 0⟩ : SiteData)) 5 1).2
      = some (2, ⟨30, 0, 0⟩) ∧
    2 ≤ 2 ∧ 2 ≤ 5 ∧
    (2, 30) ∈ (convLoop defaultPw 30 (fun _ => (⟨30, 0, 0⟩ : SiteData)) 5 1).1 := by
  have hcl : classify defaultPw 30 (⟨30, 0, 0⟩ : SiteData) = Outcome.withinMargin := by
    norm_num [classify, defaultPw]
  have hrun : (convLoop defaultPw 30 (fun _ => (⟨30, 0, 0⟩ : SiteData)) 5 1).2
      = some (2, ⟨30, 0, 0⟩) := by
    norm_num [convLoop, hcl]
  refine ⟨Or.inl hcl, hrun, ?_, by norm_num, ?_⟩
  · exact (round1_margin_or_discharge_is_provisional defaultPw 30 _).1 5 2 ⟨30, 0, 0⟩
      (Or.inl hcl) hrun
  · exact (round1_margin_or_discharge_is_provisional defaultPw 30 _).2.1 5 (by norm_num)
      (Or.inl hcl)

/-- C2: in every round with index at least 2, a telemetry reading classified
as WithinMargin, ChargingAsExpected or DischargingAsExpected (anything but
Indeterminate) terminates the convergence loop successfully in that round:
the only command issued from that round on is the one at the top of that
round, and the loop exits carrying that round's data. -/
theorem round_ge2_match_terminates (c : PwConfig) (t : ℤ) (rd : ℕ → SiteData)
    (r idx : ℕ) (h2 : 2 ≤ idx) (h : classify c t (rd idx) ≠ Outcome.indeterminate) :
    convLoop c t rd (r + 1) idx = ([(idx, t)], some (idx, rd idx)) := by
  have hi : ¬ idx < 2 := by omega
  cases hc : classify c t (rd idx) with
  | withinMargin => simp [convLoop, hc, hi]
  | chargingAsExpected => simp [convLoop, hc]
  | dischargingAsExpected => simp [convLoop, hc, hi]
  | indeterminate => exact absurd hc h

theorem round_ge2_match_terminates_witness :
    2 ≤ 2 ∧
    classify defaultPw 30 ((fun _ => (⟨10, -200, 0⟩ : SiteData)) 2)
      ≠ Outcome.indeterminate ∧
    convLoop defaultPw 30 (fun _ => (⟨10, -200, 0⟩ : SiteData)) (0 + 1) 2
      = ([(2, 30)], some (2, (fun _ => (⟨10, -200, 0⟩ : SiteData)) 2)) := by
  have hcl : classify defaultPw 30 ((fun _ => (⟨10, -200, 0⟩ : SiteData)) 2)
      ≠ Outcome.indeterminate := by
    norm_num [classify, defaultPw]
    decide
  exact ⟨le_rfl, hcl, round_ge2_match_terminates defaultPw 30 _ 0 2 le_rfl hcl⟩

/-- C10: `set_backup_reserve_percent` truncates its argument with `int()`
before any device interaction: every set-reserve command issued in every
convergence round carries the truncated integer `pyInt percent_target`, and
a successful status summary reports that truncated integer in its reserve
field, not the value originally passed in. -/
theorem target_truncated_before_any_command (c : PwConfig) (battery : BatteryData)
    (rd : ℕ → SiteData) (pt : ℚ) :
    (∀ x ∈ (set_backup_reserve_percent c battery rd pt).1, x.2 = pyInt pt) ∧
    (∀ s, (set_backup_reserve_percent c battery rd pt).2 = Except.ok s →
      s.reserve = pyInt pt) := by
  by_cases hb : 0 < battery.battery_count
  · rcases hrun : (convLoop c (pyInt pt) rd c.set_backup_reserve_retry_limit 1).2
      with _ | ⟨k, d⟩ <;>
      simp only [set_backup_reserve_percent, if_pos hb, hrun] <;>
      constructor
    · intro x hx
      exact convLoop_cmds_val c (pyInt pt) rd c.set_backup_reserve_retry_limit 1 x hx
    · intro s hs
      exact absurd hs (by simp)
    · intro x hx
      exact convLoop_cmds_val c (pyInt pt) rd c.set_backup_reserve_retry_limit 1 x hx
    · intro s hs
      cases hs
      rfl
  · simp [set_backup_reserve_percent, if_neg hb]

theorem target_truncated_before_any_command_witness :
    (set_backup_reserve_percent defaultPw ⟨2, 27000⟩ (fun _ => ⟨10, -200, 0⟩) (61 / 2)).2
      = Except.ok ⟨10, 30, 27000, 675 / 7, none⟩ ∧
    (⟨10, 30, 27000, 675 / 7, none⟩ : Summary).reserve = pyInt (61 / 2) := by
  have hpy : pyInt (61 / 2) = 30 := by norm_num [pyInt, Int.tdiv]
  have hcl : classify defaultPw 30 (⟨10, -200, 0⟩ : SiteData)
      = Outcome.chargingAsExpected := by
    norm_num [classify, defaultPw]
  have hlimit : defaultPw.set_backup_reserve_retry_limit = 5 := rfl
  have hfpe : defaultPw.full_pack_energy = 14000 := rfl
  have hconv : convLoop defaultPw 30 (fun _ => (⟨10, -200, 0⟩ : SiteData)) 5 1
      = ([(1, 30)], some (1, ⟨10, -200, 0⟩)) := by
    simp [convLoop, hcl]
  have hrun : (set_backup_reserve_percent defaultPw ⟨2, 27000⟩
      (fun _ => ⟨10, -200, 0⟩) (61 / 2)).2 = Except.ok ⟨10, 30, 27000, 675 / 7, none⟩ := by
    norm_num [set_backup_reserve_percent, hpy, hlimit, hfpe, hconv]
  exact ⟨hrun,
    (target_truncated_before_any_command defaultPw ⟨2, 27000⟩
      (fun _ => ⟨10, -200, 0⟩) (61 / 2)).2 ⟨10, 30, 27000, 675 / 7, none⟩ hrun⟩

/-- C3 evaluation at the failing input: a run whose five rounds all read
Indeterminate telemetry (`soc` 50 against target 30 with no power flow)
raises the convergence error, and the diagnostic dict it carries is the empty
`battery_data` initialized before the loop, not the last observed telemetry
snapshot. -/
theorem convergence_exhaustion_empty_diagnostic :
    (set_backup_reserve_percent defaultPw ⟨2, 27000⟩ (fun _ => ⟨50, 0, 0⟩) 30).2
      = Except.error (PwError.convergenceExhausted []) := by
  have hpy : pyInt 30 = 30 := by norm_num [pyInt]
  have hcl : classify defaultPw 30 (⟨50, 0, 0⟩ : SiteData) = Outcome.indeterminate := by
    norm_num [classify, defaultPw]
  have hlimit : defaultPw.set_backup_reserve_retry_limit = 5 := rfl
  have hconv : (convLoop defaultPw 30 (fun _ => (⟨50, 0, 0⟩ : SiteData)) 5 1).2 = none := by
    simp [convLoop, hcl]
  norm_num [set_backup_reserve_percent, hpy, hlimit, hconv]

/-- C9: no set-reserve command is ever issued unless both preconditions hold:
a device discovery returning anything but exactly one battery fails the
assertion with no command issued; a refreshed `battery_count` of zero or less
fails the assertion before the convergence loop, again with no command
issued; and such assertion errors are ordinary exceptions that the outer
transition retry catches like any other. -/
theorem no_command_without_preconditions (c : PwConfig)
    (battery_list : List BatteryData) (rd : ℕ → SiteData) (pt : ℚ) :
    (battery_list.length ≠ 1 →
      attempt_set_reserve c battery_list rd pt
        = ([], Except.error (PwError.assertionError AssertMsg.moreThanOneBatteryReturned))) ∧
    (∀ b, battery_list = [b] → b.battery_count ≤ 0 →
      attempt_set_reserve c battery_list rd pt
        = ([], Except.error (PwError.assertionError AssertMsg.noBatteriesDetected))) ∧
    (∀ (limit : ℕ) (attempts : ℕ → Except PwError Summary) (m : AssertMsg) (s : Summary),
      attempts 1 = Except.error (PwError.assertionError m) →
      attempts 2 = Except.ok s → 2 ≤ limit →
      outerLoop attempts limit 1 limit = OuterResult.ok s) := by
  refine ⟨?_, ?_, ?_⟩
  · intro h
    simp [attempt_set_reserve, teslapy_battery, h]
  · rintro b rfl hb
    have hb' : ¬ 0 < b.battery_count := by omega
    simp [attempt_set_reserve, teslapy_battery, set_backup_reserve_percent, hb']
  · intro limit attempts m s h1 h2 hlim
    obtain ⟨n, rfl⟩ : ∃ n, limit = n + 2 := ⟨limit - 2, by omega⟩
    simp [outerLoop, h1, h2, show (1 : ℕ) ≠ n + 2 by omega]

/-- Concrete attempt outcomes for the C9 witness: an assertion failure on the
first attempt, success afterwards. -/
def attemptsW : ℕ → Except PwError Summary := fun i =>
  if i = 1 then Except.error (PwError.assertionError AssertMsg.noBatteriesDetected)
  else Except.ok ⟨50, 30, 14000, 100, none⟩

theorem no_command_without_preconditions_witness :
    attempt_set_reserve defaultPw [] (fun _ => ⟨50, 0, 0⟩) 30
      = ([], Except.error (PwError.assertionError AssertMsg.moreThanOneBatteryReturned)) ∧
    attempt_set_reserve defaultPw [⟨0, 14000⟩] (fun _ => ⟨50, 0, 0⟩) 30
      = ([], Except.error (PwError.assertionError AssertMsg.noBatteriesDetected)) ∧
    outerLoop attemptsW 5 1 5 = OuterResult.ok ⟨50, 30, 14000, 100, none⟩ := by
  refine ⟨?_, ?_, ?_⟩
  · exact (no_command_without_preconditions defaultPw [] (fun _ => ⟨50, 0, 0⟩) 30).1
      (by norm_num)
  · exact (no_command_without_preconditions defaultPw [⟨0, 14000⟩]
      (fun _ => ⟨50, 0, 0⟩) 30).2.1 ⟨0, 14000⟩ rfl le_rfl
  · exact (no_command_without_preconditions defaultPw [] (fun _ => ⟨50, 0, 0⟩) 30).2.2
      5 attemptsW AssertMsg.noBatteriesDetected ⟨50, 30, 14000, 100, none⟩ rfl rfl
      (by norm_num)

theorem outerLoop_ok_of_fails_then_ok (attempts : ℕ → Except PwError Summary)
    (limit : ℕ) :
    ∀ (r i M : ℕ) (s : Summary), i + r = limit + 1 →
      (∀ j, i ≤ j → j < M → (attempts j).toOption = none) →
      attempts M = Except.ok s → i ≤ M → M ≤ limit →
      outerLoop attempts limit i r = OuterResult.ok s := by
  intro r
  induction r with
  | zero => intro i M s hr _ _ hiM hMl; omega
  | succ n ih =>
    intro i M s hr hf hM hiM hMl
    by_cases hieq : i = M
    · subst hieq
      simp [outerLoop, hM]
    · have h1 : (attempts i).toOption = none := hf i le_rfl (by omega)
      cases he : attempts i with
      | ok v => rw [he] at h1; simp [Except.toOption] at h1
      | error e =>
        have hil : i ≠ limit := by omega
        simp only [outerLoop, he, if_neg hil]
        exact ih (i + 1) M s (by omega) (fun j hj hjM => hf j (by omega) hjM) hM
          (by omega) hMl

theorem outerLoop_raises_last (attempts : ℕ → Except PwError Summary) (limit : ℕ) :
    ∀ (r i : ℕ) (e : PwError), i + r = limit + 1 → 1 ≤ r →
      (∀ j, i ≤ j → j ≤ limit → (attempts j).toOption = none) →
      attempts limit = Except.error e →
      outerLoop attempts limit i r = OuterResult.raised e := by
  intro r
  induction r with
  | zero => intro i e hr h1; omega
  | succ n ih =>
    intro i e hr _ hf hl
    by_cases hil : i = limit
    · subst hil
      simp [outerLoop, hl]
    · have h1 : (attempts i).toOption = none := hf i le_rfl (by omega)
      cases he : attempts i with
      | ok v => rw [he] at h1; simp [Except.toOption] at h1
      | error e' =>
        simp only [outerLoop, he, if_neg hil]
        exact ih (i + 1) e (by omega) (by omega)
          (fun j hj hjl => hf j (by omega) hjl) hl

/-- C4: `set_peak_mode` and `set_off_peak_mode` wrap the transition body in an
outer loop of `global_retry_limit` attempts. Any per-attempt error is caught
and the transition re-run, except on the final attempt where it propagates:
if the body fails on exactly the first `K` attempts and then succeeds, with
`K` below the retry limit, the overall operation returns that attempt's
status summary; and if every attempt up to the limit fails, the final
attempt's error is raised to the caller. -/
theorem outer_retry_catches_and_retries (c : PwConfig)
    (attempts : ℕ → Except PwError Summary) :
    (∀ (K : ℕ) (s : Summary),
      (∀ i, 1 ≤ i → i ≤ K → (attempts i).toOption = none) →
      attempts (K + 1) = Except.ok s → K < c.global_retry_limit →
      set_peak_mode c attempts = OuterResult.ok s ∧
      set_off_peak_mode c attempts = OuterResult.ok s) ∧
    (∀ e : PwError, 1 ≤ c.global_retry_limit →
      (∀ i, 1 ≤ i → i ≤ c.global_retry_limit → (attempts i).toOption = none) →
      attempts c.global_retry_limit = Except.error e →
      set_peak_mode c attempts = OuterResult.raised e ∧
      set_off_peak_mode c attempts = OuterResult.raised e) := by
  constructor
  · intro K s hf hK hKl
    have h : outerLoop attempts c.global_retry_limit 1 c.global_retry_limit
        = OuterResult.ok s :=
      outerLoop_ok_of_fails_then_ok attempts c.global_retry_limit
        c.global_retry_limit 1 (K + 1) s (by omega)
        (fun j hj hjM => hf j hj (by omega)) hK (by omega) (by omega)
    exact ⟨h, h⟩
  · intro e hlim hf hl
    have h : outerLoop attempts c.global_retry_limit 1 c.global_retry_limit
        = OuterResult.raised e :=
      outerLoop_raises_last attempts c.global_retry_limit c.global_retry_limit 1 e
        (by omega) (by omega) hf hl
    exact ⟨h, h⟩

/-- Concrete attempt outcomes for the C4 witness: transient failures on the
first two attempts, success on the third. -/
def attemptsK2 : ℕ → Except PwError Summary := fun i =>
  if i ≤ 2 then Except.error (PwError.convergenceExhausted [])
  else Except.ok ⟨50, 30, 14000, 100, none⟩

theorem outer_retry_catches_and_retries_witness :
    (∀ i, 1 ≤ i → i ≤ 2 → (attemptsK2 i).toOption = none) ∧
    attemptsK2 (2 + 1) = Except.ok ⟨50, 30, 14000, 100, none⟩ ∧
    2 < defaultPw.global_retry_limit ∧
    set_peak_mode defaultPw attemptsK2 = OuterResult.ok ⟨50, 30, 14000, 100, none⟩ ∧
    set_off_peak_mode defaultPw attemptsK2 = OuterResult.ok ⟨50, 30, 14000, 100, none⟩ := by
  have hf : ∀ i, 1 ≤ i → i ≤ 2 → (attemptsK2 i).toOption = none := by
    intro i h1 h2
    interval_cases i <;> rfl
  have hok : attemptsK2 (2 + 1) = Except.ok ⟨50, 30, 14000, 100, none⟩ := rfl
  have hlt : 2 < defaultPw.global_retry_limit := by norm_num [defaultPw]
  have h := (outer_retry_catches_and_retries defaultPw attemptsK2).1 2
    ⟨50, 30, 14000, 100, none⟩ hf hok hlt
  exact ⟨hf, hok, hlt, h.1, h.2⟩

theorem foldl_add_eq_sum {α : Type} (f : α → ℚ) :
    ∀ (l : List α) (q : ℚ), l.foldl (fun acc b => acc + f b) q = q + (l.map f).sum := by
  intro l
  induction l with
  | nil => intro q; simp
  | cons b tl ih => intro q; simp [ih, List.sum_cons]; ring

/-- C5: `get_solar_forecast_tomorrow` counts exactly the samples whose
period-end timestamp lies strictly inside tomorrow's window (both boundaries
excluded), each contributing `rate / 2` kWh; the grand total is converted to
Wh and truncated once, after summing over all sites; and a site with no
qualifying samples contributes exactly zero. -/
theorem aggregate_refines_spec (tomorrow_start tomorrow_end : ℤ)
    (sites : List (List ForecastBlock)) :
    get_solar_forecast_tomorrow tomorrow_start tomorrow_end sites
      = aggregate_spec tomorrow_start tomorrow_end sites ∧
    (∀ (b : ForecastBlock) (blocks : List ForecastBlock),
      b ∈ forecast_blocks tomorrow_start tomorrow_end blocks ↔
        b ∈ blocks ∧ tomorrow_start < b.period_end ∧ b.period_end < tomorrow_end) ∧
    site_energy_kwh tomorrow_start tomorrow_end [] = 0 ∧
    get_solar_forecast_tomorrow tomorrow_start tomorrow_end ([] :: sites)
      = get_solar_forecast_tomorrow tomorrow_start tomorrow_end sites := by
  have hsite : ∀ blocks : List ForecastBlock,
      site_energy_kwh tomorrow_start tomorrow_end blocks
        = ((blocks.filter fun b =>
            decide (tomorrow_start < b.period_end ∧ b.period_end < tomorrow_end)).map
          fun b => b.pv_estimate / 2).sum := by
    intro blocks
    rw [site_energy_kwh, foldl_add_eq_sum, forecast_blocks]
    simp [Bool.decide_and]
  have htot : ∀ ss : List (List ForecastBlock),
      get_solar_forecast_tomorrow tomorrow_start tomorrow_end ss
        = aggregate_spec tomorrow_start tomorrow_end ss := by
    intro ss
    rw [get_solar_forecast_tomorrow, aggregate_spec,
      foldl_add_eq_sum (site_energy_kwh tomorrow_start tomorrow_end) ss]
    congr 2
    · rw [zero_add]
      congr 1
      exact List.map_congr_left fun blocks _ => hsite blocks
  refine ⟨htot sites, ?_, ?_, ?_⟩
  · intro b blocks
    simp [forecast_blocks, List.mem_filter]
  · simp [site_energy_kwh, forecast_blocks]
  · rw [htot ([] :: sites), htot sites, aggregate_spec, aggregate_spec]
    simp

theorem aggregate_refines_spec_witness :
    get_solar_forecast_tomorrow 0 48 [[⟨0, 3⟩, ⟨1, 3⟩, ⟨48, 7⟩], []]
      = aggregate_spec 0 48 [[⟨0, 3⟩, ⟨1, 3⟩, ⟨48, 7⟩], []] :=
  (aggregate_refines_spec 0 48 [[⟨0, 3⟩, ⟨1, 3⟩, ⟨48, 7⟩], []]).1
